import Mathlib

/-!
Verification of the Chessy real-time chess server core against its
natural-language specification.  The definitions below are shallow
embeddings of the JavaScript sources:

  * `src/services/ClockManager.js`   — the pure clock engine and the
    background `TimeoutChecker` service;
  * `src/socket/gameHandler.js`      — the socket handlers (`make_move`,
    `set_premove`, `resign_game`, `offer_draw`, ...) and the
    `tryExecuteQueuedPremove` helper;
  * `src/services/StatsService.js`   — the idempotent stats hook
    `applyGameStats`;
  * `src/services/PremoveManager.js` — premove storage helpers.

All times are integer milliseconds (`Int`), matching the JavaScript
number arithmetic on these code paths (no fractional values arise).
JavaScript `null`/`undefined` fields are `Option`s; the coercion
`x - null = x - 0` performed by JS subtraction is made explicit with
`Option.getD 0`.  Falsy tests on numbers (`!x`) test for `none` or `0`.
-/

namespace Chessy

/-- Piece colors as used by chess.js and ClockManager ('w' / 'b'). -/
inductive Color where
  | w
  | b
deriving DecidableEq, Repr

/-- The opposite color (turn swap in `ClockManager.makeMove`). -/
def Color.opposite : Color → Color
  | .w => .b
  | .b => .w

/-- Game results as stored on the Game document ('white' / 'black' / 'draw' / 'aborted'). -/
inductive GResult where
  | white
  | black
  | draw
  | aborted
deriving DecidableEq, Repr

/-- The winning result for the opponent of `c` (used by timeout / resign paths). -/
def Color.oppositeResult : Color → GResult
  | .w => GResult.black
  | .b => GResult.white

/-- Game status ('ongoing' / 'completed'; the schema also allows 'abandoned',
which no code path in the core produces). -/
inductive GStatus where
  | ongoing
  | completed
deriving DecidableEq, Repr

/-! ## Clock engine (`ClockManager.js`) -/

/-- The internal state of a `ClockManager` instance (also its `toJSON`
serialization): remaining times, active color, timestamps, move count and
the time control in milliseconds. -/
structure ClockState where
  whiteTime : Int
  blackTime : Int
  activeColor : Option Color
  lastMoveAt : Option Int
  firstMoveDeadline : Option Int
  moveCount : Nat
  baseTime : Int
  increment : Int
deriving DecidableEq, Repr

/-- `ClockManager._calculateLagCompensation(clientTimestamp, serverTimestamp)`:
returns `0` when `clientTimestamp` is falsy (`null`/`undefined`/`0`) or in
the future, and otherwise `min(serverTimestamp - clientTimestamp, 500)`. -/
def calculateLagCompensation (clientTimestamp : Option Int) (serverTimestamp : Int) : Int :=
  match clientTimestamp with
  | none => 0
  | some ts => if ts = 0 ∨ ts > serverTimestamp then 0 else min (serverTimestamp - ts) 500

/-- The pair (whiteTime, blackTime) after the mover's elapsed time is
deducted and lag compensation plus increment are added back, exactly as in
`ClockManager.makeMove` steps "deduct elapsed" / "lag compensation" /
"increment" (lines 64–91).  Only the mover's side changes. -/
def movedTimes (st : ClockState) (color : Color) (clientTimestamp : Option Int)
    (now : Int) : Int × Int :=
  let elapsed := now - st.lastMoveAt.getD 0
  let comp := calculateLagCompensation clientTimestamp now
  match color with
  | .w => (st.whiteTime - elapsed + comp + st.increment, st.blackTime)
  | .b => (st.whiteTime, st.blackTime - elapsed + comp + st.increment)

/-- The result of `ClockManager.makeMove`: a thrown error, a timeout
result (`{timeout: true, winner, ...}` together with the mutated instance
state), or the mutated instance state on success. -/
inductive MoveOutcome where
  | err (msg : String)
  | timeout (winner : GResult) (st : ClockState)
  | ok (st : ClockState)
deriving DecidableEq, Repr

/-- `ClockManager.makeMove(color, clientTimestamp)` with `Date.now()` made
an explicit argument `now`.  First-move branch: only white may start; the
clock starts without deducting or adding any time.  Otherwise: turn check,
time update via `movedTimes`, flag-fall check (winner 'black' when white's
time is ≤ 0, else 'white'), and finally the turn swap. -/
def makeMove (st : ClockState) (color : Color) (clientTimestamp : Option Int)
    (now : Int) : MoveOutcome :=
  match st.activeColor with
  | none =>
    if color = Color.w then
      MoveOutcome.ok { st with
        activeColor := some Color.b
        lastMoveAt := some now
        firstMoveDeadline := none
        moveCount := st.moveCount + 1 }
    else
      MoveOutcome.err "White must make the first move"
  | some ac =>
    if ac = color then
      let times := movedTimes st color clientTimestamp now
      if times.1 ≤ 0 ∨ times.2 ≤ 0 then
        MoveOutcome.timeout (if times.1 ≤ 0 then GResult.black else GResult.white)
          { st with whiteTime := times.1, blackTime := times.2 }
      else
        MoveOutcome.ok { st with
          whiteTime := times.1
          blackTime := times.2
          activeColor := some color.opposite
          lastMoveAt := some now
          moveCount := st.moveCount + 1 }
    else
      MoveOutcome.err "Not your turn"

/-! ## Move sequences over the clock (for clock conservation) -/

/-- One `makeMove` call: the mover, the client timestamp it carried, and
the server time at which it was processed. -/
structure ClockCall where
  color : Color
  clientTimestamp : Option Int
  now : Int
deriving DecidableEq, Repr

/-- The externally elapsed wall-clock time the engine deducts for this
call: zero on the first-move branch, otherwise `now - lastMoveAt`. -/
def elapsedOf (st : ClockState) (c : ClockCall) : Int :=
  match st.activeColor with
  | none => 0
  | some _ => c.now - st.lastMoveAt.getD 0

/-- The lag compensation the engine grants for this call (zero on the
first-move branch, which never reads the client timestamp). -/
def compOf (st : ClockState) (c : ClockCall) : Int :=
  match st.activeColor with
  | none => 0
  | some _ => calculateLagCompensation c.clientTimestamp c.now

/-- Run a sequence of `makeMove` calls; `none` as soon as some call throws
or returns a timeout result.  Also accumulates the total elapsed time
deducted and the total lag compensation granted, both observable from the
successive snapshots. -/
def applyTrace : ClockState → List ClockCall → Option (ClockState × Int × Int)
  | st, [] => some (st, 0, 0)
  | st, c :: rest =>
    match makeMove st c.color c.clientTimestamp c.now with
    | MoveOutcome.ok st' =>
      match applyTrace st' rest with
      | some (stf, e, comp) => some (stf, e + elapsedOf st c, comp + compOf st c)
      | none => none
    | _ => none

/-! ## Game documents (`models/Game.js`) and premove slots -/

/-- A queued premove as stored on the game document and in
`PremoveManager`: squares in coordinate notation, optional promotion,
and the bookkeeping stamps added by the `set_premove` handler.  The empty
string stands for a JavaScript falsy (missing/empty) square. -/
structure PremoveData where
  fromSq : String
  toSq : String
  promotion : Option String
  setAt : Option Int
  sourceMoveNo : Option Nat
deriving DecidableEq, Repr

/-- The two premove slots of a game (`queuedPremoves.white/black`). -/
structure QueuedPremoves where
  white : Option PremoveData
  black : Option PremoveData
deriving DecidableEq, Repr

/-- Both slots unset — the `queuedPremoves: { white: null, black: null }`
patch used by the terminal transitions. -/
def QueuedPremoves.cleared : QueuedPremoves := { white := none, black := none }

/-- The slot belonging to a color. -/
def slotOf (q : QueuedPremoves) (c : Color) : Option PremoveData :=
  match c with
  | Color.w => q.white
  | Color.b => q.black

/-- Clear one color's slot (`queuedPremoves.<color> = null`). -/
def clearSlot (q : QueuedPremoves) (c : Color) : QueuedPremoves :=
  match c with
  | Color.w => { q with white := none }
  | Color.b => { q with black := none }

/-- Overwrite one color's slot. -/
def setSlot (q : QueuedPremoves) (c : Color) (pm : PremoveData) : QueuedPremoves :=
  match c with
  | Color.w => { q with white := some pm }
  | Color.b => { q with black := some pm }

/-- `PremoveManager.getPremove(game, color)`: the stored slot, treated as
absent when `from` or `to` is falsy. -/
def getPremove (q : QueuedPremoves) (c : Color) : Option PremoveData :=
  match slotOf q c with
  | none => none
  | some p => if p.fromSq = "" ∨ p.toSq = "" then none else some p

/-- The game document fields touched by the core (the `Game` model plus
the draw-offer fields read and written by the handlers). -/
structure GameDoc where
  status : GStatus
  result : Option GResult
  resultReason : Option String
  pgn : String
  updatedAt : Int
  clock : Option ClockState
  queuedPremoves : QueuedPremoves
  pendingDrawOfferFrom : Option Color
  drawOffersCount : Nat
  disconnectedPlayerId : Option String
  disconnectDeadlineAt : Option Int
  statsApplied : Bool
deriving DecidableEq, Repr

/-! ## Committed transitions of the game document

Each definition below is the net effect on the stored game document of one
commit performed by `gameHandler.js` or `TimeoutChecker` (via `game.save()`
or `Game.updateOne`). -/

/-- `resign_game`: completed, winner is the resigner's opponent, premoves
and any pending draw offer cleared. -/
def resignCommit (g : GameDoc) (resignerColor : Color) (now : Int) : GameDoc :=
  { g with
    status := GStatus.completed
    result := some resignerColor.oppositeResult
    resultReason := some "resignation"
    updatedAt := now
    queuedPremoves := QueuedPremoves.cleared
    pendingDrawOfferFrom := none }

/-- `accept_draw`: completed with a draw, premoves and the pending offer
cleared. -/
def acceptDrawCommit (g : GameDoc) (now : Int) : GameDoc :=
  { g with
    status := GStatus.completed
    result := some GResult.draw
    resultReason := some "draw_agreed"
    updatedAt := now
    queuedPremoves := QueuedPremoves.cleared
    pendingDrawOfferFrom := none }

/-- `cancel_game` (abort before move 2): completed / aborted. -/
def cancelGameCommit (g : GameDoc) (now : Int) : GameDoc :=
  { g with
    status := GStatus.completed
    result := some GResult.aborted
    resultReason := some "cancelled_due_to_first_move_timeout"
    updatedAt := now
    queuedPremoves := QueuedPremoves.cleared }

/-- `TimeoutChecker.handleTimeout`: the `$set` patch of its conditional
update (applied only when the predicate `status = ongoing` matched). -/
def handleTimeoutPatch (g : GameDoc) (winner : GResult) (now : Int) : GameDoc :=
  { g with
    status := GStatus.completed
    result := some winner
    resultReason := some "timeout"
    updatedAt := now
    queuedPremoves := QueuedPremoves.cleared }

/-- `TimeoutChecker.handleFirstMoveTimeout`: abort patch. -/
def handleFirstMoveTimeoutPatch (g : GameDoc) (now : Int) : GameDoc :=
  { g with
    status := GStatus.completed
    result := some GResult.aborted
    resultReason := some "cancelled_due_to_first_move_timeout"
    updatedAt := now
    queuedPremoves := QueuedPremoves.cleared }

/-- `TimeoutChecker.handleDisconnectTimeout`: forfeit patch, also clearing
the disconnect markers. -/
def handleDisconnectTimeoutPatch (g : GameDoc) (winner : GResult) (now : Int) : GameDoc :=
  { g with
    status := GStatus.completed
    result := some winner
    resultReason := some "disconnect_timeout"
    updatedAt := now
    queuedPremoves := QueuedPremoves.cleared
    disconnectedPlayerId := none
    disconnectDeadlineAt := none }

/-- Safety-net / `join_game` reconnect: clear the disconnect markers only. -/
def clearDisconnectPatch (g : GameDoc) : GameDoc :=
  { g with disconnectedPlayerId := none, disconnectDeadlineAt := none }

/-- The `make_move` flag-fall branch (`clockState.timeout`): `game.save()`
persists `status = completed`, `result = winner` and the mutated clock.
`resultReason`, `updatedAt` and the premove slots are NOT touched on this
path (only the in-memory `clearAll` no-op runs). -/
def moveFlagFallCommit (g : GameDoc) (clockAfter : ClockState) (winner : GResult) : GameDoc :=
  { g with
    status := GStatus.completed
    result := some winner
    clock := some clockAfter }

/-- The `make_move` narrow persist (`Game.updateOne` at the end of the
handler): new pgn, optionally the new clock, optionally the mover's
cleared premove slot, and — when the rules library reports game over —
the completion fields. -/
def moveDbCommit (g : GameDoc) (pgnAfter : String) (clockAfter : Option ClockState)
    (clearedMover : Option Color) (over : Option (GResult × String)) (now : Int) : GameDoc :=
  { g with
    pgn := pgnAfter
    updatedAt := now
    clock := match clockAfter with | some c => some c | none => g.clock
    queuedPremoves := match clearedMover with
      | some c => clearSlot g.queuedPremoves c
      | none => g.queuedPremoves
    status := match over with | some _ => GStatus.completed | none => g.status
    result := match over with | some p => some p.1 | none => g.result
    resultReason := match over with | some p => some p.2 | none => g.resultReason }

/-! ## Events broadcast to the room / users -/

/-- Events emitted by the handlers that matter to the claims. -/
inductive Emit where
  | moveMade (pgn : String)
  | clockUpdate
  | premoveSetEvt (byColor : Color)
  | premoveCleared (byColor : Color) (reason : String)
  | premoveRejectedTo (playerId : String) (reason : String)
  | gameOver (result : GResult) (reason : String)
deriving DecidableEq, Repr

/-! ## `tryExecuteQueuedPremove` (`gameHandler.js`)

The chess rules library is abstracted by two oracles:
`ruleMove pgn pm` is the pgn after playing the premove, or `none` when the
move is illegal and `chess.move` throws; `overState pgn` is
`some (result, resultReason)` when the position after `pgn` is game over
(checkmate / stalemate / draw), else `none`. -/

/-- The happy path of a premove execution: append to the pgn, store the new
clock if any, run game-over detection, clear the executed slot, and emit
`move_made`, `clock_update` (when clocked), `premove_cleared(executed)` and
`game_over` when completed — in this order. -/
def finishPremove (overState : String → Option (GResult × String)) (g : GameDoc)
    (pgnAfter : String) (clockAfter : Option ClockState) (turnColor : Color)
    (now : Int) : GameDoc × List Emit :=
  let over := overState pgnAfter
  let gNew : GameDoc := { g with
    pgn := pgnAfter
    updatedAt := now
    clock := match clockAfter with | some c => some c | none => g.clock
    queuedPremoves := clearSlot g.queuedPremoves turnColor
    status := match over with | some _ => GStatus.completed | none => g.status
    result := match over with | some p => some p.1 | none => g.result
    resultReason := match over with | some p => some p.2 | none => g.resultReason }
  (gNew,
    [Emit.moveMade pgnAfter] ++
    (match clockAfter with | some _ => [Emit.clockUpdate] | none => []) ++
    [Emit.premoveCleared turnColor "executed"] ++
    (match over with
     | some p => [Emit.gameOver p.1 (if p.2 = "checkmate" then "checkmate" else "draw")]
     | none => []))

/-- `tryExecuteQueuedPremove(game, chess, gameId)`: runs after a normal
move committed, for the side now to move.  No queued premove: no effect.
Illegal premove (the `catch` branch): clear the slot, emit
`premove_rejected` to the premover and `premove_cleared(rejected)` to the
room, leave the pgn untouched.  Legal premove: clock accounting (the code
passes `Date.now()` as the client timestamp); a clock timeout
short-circuits to a terminal commit; a clock error behaves like the
rejected branch; otherwise the happy path. -/
def tryExecuteQueuedPremove (ruleMove : String → PremoveData → Option String)
    (overState : String → Option (GResult × String)) (g : GameDoc)
    (turnColor : Color) (whiteId blackId : String) (now : Int) :
    GameDoc × List Emit :=
  match getPremove g.queuedPremoves turnColor with
  | none => (g, [])
  | some pm =>
    let premoverId := match turnColor with | Color.w => whiteId | Color.b => blackId
    match ruleMove g.pgn pm with
    | none =>
      ({ g with queuedPremoves := clearSlot g.queuedPremoves turnColor },
       [Emit.premoveRejectedTo premoverId "Invalid premove",
        Emit.premoveCleared turnColor "rejected"])
    | some pgnAfter =>
      match g.clock with
      | none => finishPremove overState g pgnAfter none turnColor now
      | some clock =>
        match makeMove clock turnColor (some now) now with
        | MoveOutcome.timeout w clockAfter =>
          ({ g with
              status := GStatus.completed
              result := some w
              clock := some clockAfter
              pgn := pgnAfter
              updatedAt := now
              queuedPremoves := QueuedPremoves.cleared },
           [Emit.gameOver w "timeout", Emit.clockUpdate])
        | MoveOutcome.err msg =>
          ({ g with queuedPremoves := clearSlot g.queuedPremoves turnColor },
           [Emit.premoveRejectedTo premoverId msg,
            Emit.premoveCleared turnColor "rejected"])
        | MoveOutcome.ok clockAfter =>
          finishPremove overState g pgnAfter (some clockAfter) turnColor now

/-! ## `set_premove` handler -/

/-- The reply the `set_premove` handler sends to the caller. -/
inductive SetPremoveReply where
  | errorMsg (msg : String)
  | rejectedMsg (reason : String)
  | accepted
deriving DecidableEq, Repr

/-- JavaScript `premove.promotion || undefined`: an empty string collapses
to undefined. -/
def jsOrNone (o : Option String) : Option String :=
  match o with
  | some "" => none
  | o => o

/-- The `set_premove` handler: guards in source order — game must be
ongoing, caller must be a player (`callerColor` is the color computed from
the socket identity, `none` when not a player), it must NOT be the
caller's turn, and `premove.from` / `premove.to` must be truthy.  On
success the slot is stored with `setAt = now` and
`sourceMoveNo = |history|`.  No chess-legality check happens here. -/
def setPremoveHandler (g : GameDoc) (callerColor : Option Color)
    (premove : Option PremoveData) (turnColor : Color) (now : Int)
    (histLen : Nat) : SetPremoveReply × GameDoc :=
  if g.status ≠ GStatus.ongoing then
    (SetPremoveReply.rejectedMsg "Game is not active", g)
  else
    match callerColor with
    | none => (SetPremoveReply.errorMsg "You are not in this game", g)
    | some pc =>
      if turnColor = pc then
        (SetPremoveReply.rejectedMsg "It is your turn — make a normal move", g)
      else
        match premove with
        | none => (SetPremoveReply.rejectedMsg "Invalid premove data", g)
        | some pm =>
          if pm.fromSq = "" ∨ pm.toSq = "" then
            (SetPremoveReply.rejectedMsg "Invalid premove data", g)
          else
            let stored : PremoveData :=
              { fromSq := pm.fromSq
                toSq := pm.toSq
                promotion := jsOrNone pm.promotion
                setAt := some now
                sourceMoveNo := some histLen }
            (SetPremoveReply.accepted,
             { g with queuedPremoves := setSlot g.queuedPremoves pc stored })

/-! ## Draw offers (`offer_draw` / `reject_draw`) -/

/-- Reply of the draw handlers. -/
inductive DrawReply where
  | errorMsg (msg : String)
  | ok
deriving DecidableEq, Repr

/-- The `offer_draw` handler (for a caller already known to be a player):
checks, in source order, that the game is ongoing, that the game-wide
offer counter `drawOffersCount` is below 2, and that no offer is pending;
then records the pending offer and increments the shared counter. -/
def offerDrawHandler (g : GameDoc) (caller : Color) : DrawReply × GameDoc :=
  if g.status ≠ GStatus.ongoing then
    (DrawReply.errorMsg "Game is not active", g)
  else if g.drawOffersCount ≥ 2 then
    (DrawReply.errorMsg "Maximum draw offers reached for this game", g)
  else if g.pendingDrawOfferFrom ≠ none then
    (DrawReply.errorMsg "A draw offer is already pending", g)
  else
    (DrawReply.ok,
     { g with pendingDrawOfferFrom := some caller,
              drawOffersCount := g.drawOffersCount + 1 })

/-- The `reject_draw` handler: requires an ongoing game and a pending
offer from the caller's opponent; clears the pending offer. -/
def rejectDrawHandler (g : GameDoc) (caller : Color) : DrawReply × GameDoc :=
  if g.status ≠ GStatus.ongoing then
    (DrawReply.errorMsg "Game is not active", g)
  else if g.pendingDrawOfferFrom ≠ some caller.opposite then
    (DrawReply.errorMsg "No valid pending draw offer to reject", g)
  else
    (DrawReply.ok, { g with pendingDrawOfferFrom := none })

/-- A draw-negotiation interaction used to exercise the handlers. -/
inductive DrawAct where
  | offer (c : Color)
  | reject (c : Color)
deriving DecidableEq, Repr

/-- Run a sequence of draw interactions, counting how many offers by white
and by black were actually accepted (the claim's per-player counters,
reconstructed from the trace). -/
def drawTrace : GameDoc → List DrawAct → GameDoc × Nat × Nat
  | g, [] => (g, 0, 0)
  | g, DrawAct.offer c :: rest =>
    let r := offerDrawHandler g c
    let acc := drawTrace r.2 rest
    if r.1 = DrawReply.ok then
      match c with
      | Color.w => (acc.1, acc.2.1 + 1, acc.2.2)
      | Color.b => (acc.1, acc.2.1, acc.2.2 + 1)
    else acc
  | g, DrawAct.reject c :: rest => drawTrace (rejectDrawHandler g c).2 rest

/-! ## Stats side effect (`StatsService.applyGameStats`) -/

/-- A user's win/loss/draw counters. -/
structure PlayerTally where
  wins : Nat
  losses : Nat
  draws : Nat
deriving DecidableEq, Repr

/-- The state `applyGameStats` operates on: the game document plus both
players' counters. -/
structure StatsWorld where
  game : GameDoc
  whiteStats : PlayerTally
  blackStats : PlayerTally
deriving DecidableEq, Repr

/-- `applyGameStats(gameId)`: the atomic `findOneAndUpdate` guard matches
only when `statsApplied` is not yet true and — when it matches — sets the
flag in the same step.  Only afterwards are aborted (or result-less) games
skipped; otherwise the winner/loser/draw counters are incremented.  The
boolean is the function's return value (`true` when counters were
applied). -/
def applyGameStats (w : StatsWorld) : StatsWorld × Bool :=
  if w.game.statsApplied then
    (w, false)
  else
    let w1 : StatsWorld := { w with game := { w.game with statsApplied := true } }
    match w.game.result with
    | none => (w1, false)
    | some GResult.aborted => (w1, false)
    | some GResult.white =>
      ({ w1 with
          whiteStats := { w.whiteStats with wins := w.whiteStats.wins + 1 }
          blackStats := { w.blackStats with losses := w.blackStats.losses + 1 } }, true)
    | some GResult.black =>
      ({ w1 with
          whiteStats := { w.whiteStats with losses := w.whiteStats.losses + 1 }
          blackStats := { w.blackStats with wins := w.blackStats.wins + 1 } }, true)
    | some GResult.draw =>
      ({ w1 with
          whiteStats := { w.whiteStats with draws := w.whiteStats.draws + 1 }
          blackStats := { w.blackStats with draws := w.blackStats.draws + 1 } }, true)

/-! ## Committed transitions as a step relation (for the data-model invariant) -/

/-- One committed transition of the stored game document, by any of the
coordinator handlers or the Timeout Watcher.  The guards are the run-time
checks each code path performs before committing. -/
inductive Step : GameDoc → GameDoc → Prop where
  | resign (g : GameDoc) (c : Color) (now : Int) :
      g.status = GStatus.ongoing → Step g (resignCommit g c now)
  | acceptDraw (g : GameDoc) (c : Color) (now : Int) :
      g.status = GStatus.ongoing → g.pendingDrawOfferFrom = some c.opposite →
      Step g (acceptDrawCommit g now)
  | cancelGame (g : GameDoc) (now : Int) :
      g.status = GStatus.ongoing → Step g (cancelGameCommit g now)
  | watcherTimeout (g : GameDoc) (winner : GResult) (now : Int) :
      g.status = GStatus.ongoing → Step g (handleTimeoutPatch g winner now)
  | watcherFirstMove (g : GameDoc) (now : Int) :
      g.status = GStatus.ongoing → Step g (handleFirstMoveTimeoutPatch g now)
  | watcherDisconnect (g : GameDoc) (winner : GResult) (pid : String) (now : Int) :
      g.status = GStatus.ongoing → g.disconnectedPlayerId = some pid →
      Step g (handleDisconnectTimeoutPatch g winner now)
  | reconnectClear (g : GameDoc) :
      Step g (clearDisconnectPatch g)
  | moveFlagFall (g : GameDoc) (ck ckAfter : ClockState) (c : Color)
      (cts : Option Int) (now : Int) (w : GResult) :
      g.clock = some ck → makeMove ck c cts now = MoveOutcome.timeout w ckAfter →
      Step g (moveFlagFallCommit g ckAfter w)
  | moveCommit (g : GameDoc) (pgnAfter : String) (clockAfter : Option ClockState)
      (clearedMover : Option Color) (over : Option (GResult × String)) (now : Int) :
      Step g (moveDbCommit g pgnAfter clockAfter clearedMover over now)
  | premoveExec (ruleMove : String → PremoveData → Option String)
      (overState : String → Option (GResult × String)) (g : GameDoc)
      (turnColor : Color) (whiteId blackId : String) (now : Int) :
      Step g (tryExecuteQueuedPremove ruleMove overState g turnColor whiteId blackId now).1
  | setPremove (g : GameDoc) (callerColor : Option Color) (premove : Option PremoveData)
      (turnColor : Color) (now : Int) (histLen : Nat) :
      Step g (setPremoveHandler g callerColor premove turnColor now histLen).2
  | cancelPremove (g : GameDoc) (c : Color) :
      Step g { g with queuedPremoves := clearSlot g.queuedPremoves c }
  | offerDraw (g : GameDoc) (c : Color) :
      Step g (offerDrawHandler g c).2
  | rejectDraw (g : GameDoc) (c : Color) :
      Step g (rejectDrawHandler g c).2
  | statsHook (g : GameDoc) (wS bS : PlayerTally) :
      Step g (applyGameStats { game := g, whiteStats := wS, blackStats := bS }).1.game

/-! ## Termination concurrency (`resign_game` vs the Timeout Watcher) -/

/-- Shared-state view of one game's termination race: the stored status
and disconnect marker, counters of `game_over` emissions and stats-hook
invocations, and the resign handler's thread-local state (the status it
loaded via `findById`, and whether it already finished). -/
structure TermSys where
  status : GStatus
  disconnectedPlayerId : Option String
  gameOverEmits : Nat
  statsInvocations : Nat
  resignLoadedStatus : Option GStatus
  resignFinished : Bool
deriving DecidableEq, Repr

/-- Atomic actions of the termination race.  The three watcher actions are
single atomic steps because `Game.updateOne` with its predicate is atomic
in the store and each handler emits / invokes stats only when
`modifiedCount ≠ 0`.  The resign handler is two steps: it first loads the
document, then — if the loaded copy was ongoing — saves unconditionally
and emits `game_over` and invokes the stats hook unconditionally. -/
inductive TermAct where
  | watcherClockTimeout
  | watcherFirstMoveTimeout
  | watcherDisconnectTimeout (expectedId : String)
  | resignLoad
  | resignFinish
deriving DecidableEq, Repr

/-- Interleaved small-step semantics of the termination race. -/
def termStep (s : TermSys) (a : TermAct) : TermSys :=
  match a with
  | TermAct.watcherClockTimeout =>
    if s.status = GStatus.ongoing then
      { s with
        status := GStatus.completed
        gameOverEmits := s.gameOverEmits + 1
        statsInvocations := s.statsInvocations + 1 }
    else s
  | TermAct.watcherFirstMoveTimeout =>
    if s.status = GStatus.ongoing then
      { s with status := GStatus.completed, gameOverEmits := s.gameOverEmits + 1 }
    else s
  | TermAct.watcherDisconnectTimeout expected =>
    if s.status = GStatus.ongoing ∧ s.disconnectedPlayerId = some expected then
      { s with
        status := GStatus.completed
        disconnectedPlayerId := none
        gameOverEmits := s.gameOverEmits + 1
        statsInvocations := s.statsInvocations + 1 }
    else s
  | TermAct.resignLoad =>
    if s.resignLoadedStatus = none then
      { s with resignLoadedStatus := some s.status }
    else s
  | TermAct.resignFinish =>
    match s.resignLoadedStatus with
    | some GStatus.ongoing =>
      if s.resignFinished then s
      else
        { s with
          status := GStatus.completed
          resignFinished := true
          gameOverEmits := s.gameOverEmits + 1
          statsInvocations := s.statsInvocations + 1 }
    | _ => s

/-- Run a schedule of termination actions. -/
def termRun (s : TermSys) (acts : List TermAct) : TermSys := acts.foldl termStep s

/-- A game just before termination: ongoing, one disconnected player,
nothing emitted yet, resign handler not yet started. -/
def termInit : TermSys :=
  { status := GStatus.ongoing
    disconnectedPlayerId := some "user-1"
    gameOverEmits := 0
    statsInvocations := 0
    resignLoadedStatus := none
    resignFinished := false }

/-- Watcher-driven actions (those guarded by a conditional update). -/
def TermAct.isWatcher : TermAct → Bool
  | TermAct.watcherClockTimeout => true
  | TermAct.watcherFirstMoveTimeout => true
  | TermAct.watcherDisconnectTimeout _ => true
  | TermAct.resignLoad => false
  | TermAct.resignFinish => false

/-! ## Concrete sample states used by witnesses and counterexamples -/

/-- A queued premove for black. -/
def samplePremove : PremoveData :=
  { fromSq := "e7", toSq := "e5", promotion := none, setAt := some 0,
    sourceMoveNo := some 1 }

/-- A premove whose source and target squares coincide (still accepted by
the `set_premove` handler). -/
def samplePremoveSame : PremoveData :=
  { fromSq := "e2", toSq := "e2", promotion := some "x", setAt := none,
    sourceMoveNo := none }

/-- A mid-game clock with white to move and 100 ms left. -/
def sampleClock : ClockState :=
  { whiteTime := 100, blackTime := 50000, activeColor := some Color.w,
    lastMoveAt := some 0, firstMoveDeadline := none, moveCount := 4,
    baseTime := 60000, increment := 0 }

/-- The internal state of `sampleClock` after `makeMove('w', ...)` at
`now = 1000` flag-falls: 1000 ms elapsed were deducted. -/
def sampleClockFlagged : ClockState :=
  { sampleClock with whiteTime := -900 }

/-- An ongoing game with `sampleClock` and a queued black premove. -/
def sampleGame : GameDoc :=
  { status := GStatus.ongoing, result := none, resultReason := none,
    pgn := "1. e4", updatedAt := 0, clock := some sampleClock,
    queuedPremoves := { white := none, black := some samplePremove },
    pendingDrawOfferFrom := none, drawOffersCount := 0,
    disconnectedPlayerId := none, disconnectDeadlineAt := none,
    statsApplied := false }

/-- A completed aborted game whose stats hook has not yet run. -/
def sampleAbortedGame : GameDoc :=
  { status := GStatus.completed, result := some GResult.aborted,
    resultReason := some "cancelled_due_to_first_move_timeout", pgn := "",
    updatedAt := 0, clock := none, queuedPremoves := QueuedPremoves.cleared,
    pendingDrawOfferFrom := none, drawOffersCount := 0,
    disconnectedPlayerId := none, disconnectDeadlineAt := none,
    statsApplied := false }

/-- Zeroed user counters. -/
def sampleTally : PlayerTally := { wins := 0, losses := 0, draws := 0 }

/-- The stats world of the aborted sample game with zeroed counters. -/
def sampleAbortedWorld : StatsWorld :=
  { game := sampleAbortedGame, whiteStats := sampleTally, blackStats := sampleTally }

end Chessy

namespace Chessy

/-! ## Claim C3 — flag-fall in `makeMove` -/

/-- C3: In `ClockManager.makeMove`, whenever after deducting elapsed time,
adding lag compensation and adding the increment either side's remaining
time is ≤ 0, the call returns a timeout result whose winner is the
opposite color of a side whose time is ≤ 0, without switching
`activeColor`, without advancing `lastMoveAt`, and without incrementing
`moveCount`. -/
theorem makeMove_flag_fall (st : ClockState) (color : Color)
    (clientTimestamp : Option Int) (now : Int)
    (hact : st.activeColor = some color)
    (hto : (movedTimes st color clientTimestamp now).1 ≤ 0 ∨
           (movedTimes st color clientTimestamp now).2 ≤ 0) :
    ∃ w st', makeMove st color clientTimestamp now = MoveOutcome.timeout w st' ∧
      st'.activeColor = st.activeColor ∧
      st'.moveCount = st.moveCount ∧
      st'.lastMoveAt = st.lastMoveAt ∧
      ((st'.whiteTime ≤ 0 ∧ w = Color.w.oppositeResult) ∨
       (st'.blackTime ≤ 0 ∧ w = Color.b.oppositeResult)) := by
  refine ⟨if (movedTimes st color clientTimestamp now).1 ≤ 0 then GResult.black
          else GResult.white,
    { st with whiteTime := (movedTimes st color clientTimestamp now).1,
              blackTime := (movedTimes st color clientTimestamp now).2 }, ?_, ?_, ?_, ?_, ?_⟩
  · unfold makeMove
    rw [hact]
    simp [hto]
  · simp
  · simp
  · simp
  · by_cases h1 : (movedTimes st color clientTimestamp now).1 ≤ 0
    · left
      simp [h1, Color.oppositeResult]
    · right
      rcases hto with h | h
      · exact absurd h h1
      · simp [h1, h, Color.oppositeResult]

/-- Witness for C3: a concrete flag-fall (white to move with 100 ms left,
1000 ms elapse) returns a timeout won by black with the turn not swapped. -/
theorem makeMove_flag_fall_witness :
    ∃ w st', makeMove
        { whiteTime := 100, blackTime := 50000, activeColor := some Color.w,
          lastMoveAt := some 0, firstMoveDeadline := none, moveCount := 4,
          baseTime := 60000, increment := 0 }
        Color.w none 1000 = MoveOutcome.timeout w st' ∧
      st'.activeColor = some Color.w ∧
      st'.moveCount = 4 ∧
      st'.lastMoveAt = some 0 ∧
      ((st'.whiteTime ≤ 0 ∧ w = Color.w.oppositeResult) ∨
       (st'.blackTime ≤ 0 ∧ w = Color.b.oppositeResult)) := by
  obtain ⟨w, st', h1, h2, h3, h4, h5⟩ := makeMove_flag_fall
    { whiteTime := 100, blackTime := 50000, activeColor := some Color.w,
      lastMoveAt := some 0, firstMoveDeadline := none, moveCount := 4,
      baseTime := 60000, increment := 0 }
    Color.w none 1000 rfl (by left; decide)
  exact ⟨w, st', h1, by rw [h2], h3, by rw [h4], h5⟩

/-! ## Claim C4 — lag compensation -/

/-- C4 counterexample: the claim states that whenever `clientTimestampMs`
is not positive the compensation is zero; but for the present, negative
timestamp `-1` (truthy in JavaScript, and ≤ now) the code grants the full
500 ms compensation. -/
theorem lagCompensation_negative_timestamp_not_zero :
    (-1 : Int) ≤ 1000 ∧ ¬ (0 < (-1 : Int)) ∧
    calculateLagCompensation (some (-1)) 1000 = 500 ∧
    calculateLagCompensation (some (-1)) 1000 ≠ 0 := by
  decide

/-- C4 (amended): if `clientTimestampMs` is present, nonzero, and ≤ now,
`_calculateLagCompensation` returns exactly `min(now - clientTimestampMs,
500)`; if it is absent, zero, or in the future it returns 0; and the
compensation always lies between 0 and 500 ms inclusive. -/
theorem lagCompensation_spec (clientTimestamp : Option Int) (now : Int) :
    (0 ≤ calculateLagCompensation clientTimestamp now ∧
     calculateLagCompensation clientTimestamp now ≤ 500) ∧
    (∀ ts, clientTimestamp = some ts → ts ≠ 0 → ts ≤ now →
      calculateLagCompensation clientTimestamp now = min (now - ts) 500) ∧
    ((clientTimestamp = none ∨ clientTimestamp = some 0 ∨
      (∃ ts, clientTimestamp = some ts ∧ now < ts)) →
      calculateLagCompensation clientTimestamp now = 0) := by
  refine ⟨?_, ?_, ?_⟩
  · rcases clientTimestamp with _ | ts
    · simp [calculateLagCompensation]
    · simp only [calculateLagCompensation]
      by_cases h : ts = 0 ∨ ts > now
      · simp [h]
      · rw [if_neg h]
        push_neg at h
        exact ⟨le_min (by omega) (by norm_num), min_le_right _ _⟩
  · intro ts hts hne hle
    subst hts
    simp only [calculateLagCompensation]
    rw [if_neg]
    push_neg
    exact ⟨hne, by omega⟩
  · intro h
    rcases h with h | h | ⟨ts, hts, hlt⟩
    · simp [h, calculateLagCompensation]
    · simp [h, calculateLagCompensation]
    · subst hts
      simp only [calculateLagCompensation]
      rw [if_pos]
      right
      omega

/-- Witness for C4 (amended): at `clientTimestamp = 600`, `now = 1000` the
compensation is `min 400 500`; at a future timestamp it is 0; and it is
within the [0, 500] bounds. -/
theorem lagCompensation_spec_witness :
    calculateLagCompensation (some 600) 1000 = min (1000 - 600) 500 ∧
    calculateLagCompensation (some 2000) 1000 = 0 ∧
    0 ≤ calculateLagCompensation (some 600) 1000 ∧
    calculateLagCompensation (some 600) 1000 ≤ 500 := by
  have h1 := (lagCompensation_spec (some 600) 1000).2.1 600 rfl (by decide) (by decide)
  have h2 := (lagCompensation_spec (some 2000) 1000).2.2
    (Or.inr (Or.inr ⟨2000, rfl, by decide⟩))
  have h3 := (lagCompensation_spec (some 600) 1000).1
  exact ⟨h1, h2, h3.1, h3.2⟩

/-! ## Claim C10 — first move leaves the times untouched -/

/-- C10: the first `makeMove` call on a fresh clock (`activeColor` unset,
mover white) leaves both remaining times and the time control unchanged —
no elapsed deduction, no lag compensation, no increment — and only
`activeColor`, `lastMoveAt`, `firstMoveDeadline` and `moveCount` change. -/
theorem makeMove_first_move_frame (st : ClockState) (clientTimestamp : Option Int)
    (now : Int) (hfresh : st.activeColor = none) :
    makeMove st Color.w clientTimestamp now = MoveOutcome.ok { st with
      activeColor := some Color.b
      lastMoveAt := some now
      firstMoveDeadline := none
      moveCount := st.moveCount + 1 } ∧
    ∀ st', makeMove st Color.w clientTimestamp now = MoveOutcome.ok st' →
      st'.whiteTime = st.whiteTime ∧ st'.blackTime = st.blackTime ∧
      st'.baseTime = st.baseTime ∧ st'.increment = st.increment := by
  have hrun : makeMove st Color.w clientTimestamp now = MoveOutcome.ok { st with
      activeColor := some Color.b
      lastMoveAt := some now
      firstMoveDeadline := none
      moveCount := st.moveCount + 1 } := by
    unfold makeMove
    rw [hfresh]
    simp
  refine ⟨hrun, ?_⟩
  intro st' h
  rw [hrun] at h
  simp only [MoveOutcome.ok.injEq] at h
  subst h
  exact ⟨rfl, rfl, rfl, rfl⟩

/-- Witness for C10: on a concrete fresh 1+0 clock, white's first move at
`now = 12345` changes only the turn bookkeeping fields. -/
theorem makeMove_first_move_frame_witness :
    makeMove
      { whiteTime := 60000, blackTime := 60000, activeColor := none,
        lastMoveAt := none, firstMoveDeadline := some 30000, moveCount := 0,
        baseTime := 60000, increment := 0 }
      Color.w none 12345 = MoveOutcome.ok
      { whiteTime := 60000, blackTime := 60000, activeColor := some Color.b,
        lastMoveAt := some 12345, firstMoveDeadline := none, moveCount := 1,
        baseTime := 60000, increment := 0 } := by
  exact (makeMove_first_move_frame
    { whiteTime := 60000, blackTime := 60000, activeColor := none,
      lastMoveAt := none, firstMoveDeadline := some 30000, moveCount := 0,
      baseTime := 60000, increment := 0 } none 12345 rfl).1

/-! ## Evaluation lemmas for `makeMove` -/

/-- Fresh clock, white mover: the first-move branch fires. -/
theorem makeMove_fresh_w_eval (st : ClockState) (cts : Option Int) (now : Int)
    (hfresh : st.activeColor = none) :
    makeMove st Color.w cts now = MoveOutcome.ok { st with
      activeColor := some Color.b
      lastMoveAt := some now
      firstMoveDeadline := none
      moveCount := st.moveCount + 1 } := by
  unfold makeMove
  rw [hfresh]
  simp

/-- Fresh clock, black mover: rejected. -/
theorem makeMove_fresh_b_eval (st : ClockState) (cts : Option Int) (now : Int)
    (hfresh : st.activeColor = none) :
    makeMove st Color.b cts now = MoveOutcome.err "White must make the first move" := by
  unfold makeMove
  rw [hfresh]
  simp

/-- Started clock, not the mover's turn: rejected. -/
theorem makeMove_wrong_turn_eval (st : ClockState) (color : Color)
    (cts : Option Int) (now : Int) (ac : Color)
    (hact : st.activeColor = some ac) (hne : ac ≠ color) :
    makeMove st color cts now = MoveOutcome.err "Not your turn" := by
  unfold makeMove
  rw [hact]
  simp [hne]

/-- Started clock, mover's turn: the time update followed by the flag-fall
check and, when no flag fell, the turn swap. -/
theorem makeMove_run_eval (st : ClockState) (color : Color)
    (cts : Option Int) (now : Int)
    (hact : st.activeColor = some color) :
    makeMove st color cts now =
      (if (movedTimes st color cts now).1 ≤ 0 ∨ (movedTimes st color cts now).2 ≤ 0 then
        MoveOutcome.timeout
          (if (movedTimes st color cts now).1 ≤ 0 then GResult.black else GResult.white)
          { st with whiteTime := (movedTimes st color cts now).1,
                    blackTime := (movedTimes st color cts now).2 }
      else
        MoveOutcome.ok { st with
          whiteTime := (movedTimes st color cts now).1
          blackTime := (movedTimes st color cts now).2
          activeColor := some color.opposite
          lastMoveAt := some now
          moveCount := st.moveCount + 1 }) := by
  unfold makeMove
  rw [hact]
  simp

/-! ## Claim C5 — clock conservation -/

/-- A successful `makeMove` on a fresh clock changes neither remaining
time; it only advances the bookkeeping fields. -/
theorem makeMove_ok_fresh_eq (st : ClockState) (color : Color)
    (cts : Option Int) (now : Int) (st' : ClockState)
    (hfresh : st.activeColor = none)
    (h : makeMove st color cts now = MoveOutcome.ok st') :
    st'.whiteTime = st.whiteTime ∧ st'.blackTime = st.blackTime ∧
    st'.moveCount = st.moveCount + 1 ∧ st'.increment = st.increment ∧
    st'.activeColor = some Color.b := by
  cases color with
  | w =>
    rw [makeMove_fresh_w_eval st cts now hfresh] at h
    simp only [MoveOutcome.ok.injEq] at h
    subst h
    exact ⟨rfl, rfl, rfl, rfl, rfl⟩
  | b =>
    rw [makeMove_fresh_b_eval st cts now hfresh] at h
    simp at h

/-- A successful `makeMove` on a started clock: the sum of the remaining
times changes by `- elapsed + compensation + increment`, the move count
advances, and the clock stays started. -/
theorem makeMove_ok_started_eq (st : ClockState) (color : Color)
    (cts : Option Int) (now : Int) (st' : ClockState) (ac : Color)
    (hact : st.activeColor = some ac)
    (h : makeMove st color cts now = MoveOutcome.ok st') :
    st'.whiteTime + st'.blackTime
        = st.whiteTime + st.blackTime - (now - st.lastMoveAt.getD 0)
          + calculateLagCompensation cts now + st.increment ∧
    st'.moveCount = st.moveCount + 1 ∧ st'.increment = st.increment ∧
    st'.activeColor = some color.opposite := by
  have hturn : ac = color := by
    by_contra hne
    rw [makeMove_wrong_turn_eval st color cts now ac hact hne] at h
    simp at h
  subst hturn
  rw [makeMove_run_eval st ac cts now hact] at h
  split at h
  · simp at h
  · simp only [MoveOutcome.ok.injEq] at h
    subst h
    refine ⟨?_, rfl, rfl, rfl⟩
    cases ac <;> simp [movedTimes] <;> ring

/-- Summation invariant for traces that start from a started clock:
the sum of remaining times changes by `n·increment - totalElapsed +
totalCompensation` over `n` successful calls. -/
theorem applyTrace_started_sum (calls : List ClockCall) :
    ∀ (st stf : ClockState) (e comp : Int), st.activeColor ≠ none →
      applyTrace st calls = some (stf, e, comp) →
      stf.whiteTime + stf.blackTime
          = st.whiteTime + st.blackTime + (calls.length : Int) * st.increment - e + comp ∧
      stf.moveCount = st.moveCount + calls.length := by
  induction calls with
  | nil =>
    intro st stf e comp hne h
    simp only [applyTrace, Option.some.injEq, Prod.mk.injEq] at h
    obtain ⟨h1, h2, h3⟩ := h
    subst h1; subst h2; subst h3
    simp
  | cons c rest ih =>
    intro st stf e comp hne h
    simp only [applyTrace] at h
    cases hmk : makeMove st c.color c.clientTimestamp c.now with
    | err m => simp [hmk] at h
    | timeout w s2 => simp [hmk] at h
    | ok st' =>
      rw [hmk] at h
      simp only at h
      cases htr : applyTrace st' rest with
      | none => simp [htr] at h
      | some res =>
        obtain ⟨stf', e', comp'⟩ := res
        rw [htr] at h
        simp only [Option.some.injEq, Prod.mk.injEq] at h
        obtain ⟨h1, h2, h3⟩ := h
        subst h1
        obtain ⟨ac, hac⟩ : ∃ ac, st.activeColor = some ac := by
          cases hco : st.activeColor
          · exact absurd hco hne
          · exact ⟨_, rfl⟩
        have hstep := makeMove_ok_started_eq st c.color c.clientTimestamp c.now st' ac hac hmk
        have hne' : st'.activeColor ≠ none := by
          rw [hstep.2.2.2]; simp
        have ihh := ih st' stf' e' comp' hne' htr
        have hel : elapsedOf st c = c.now - st.lastMoveAt.getD 0 := by
          simp [elapsedOf, hac]
        have hcp : compOf st c = calculateLagCompensation c.clientTimestamp c.now := by
          simp [compOf, hac]
        constructor
        · have hlen : (((c :: rest).length : Nat) : Int) = (rest.length : Int) + 1 := by
            simp [List.length_cons]
          rw [hlen]
          have hsum := ihh.1
          rw [hstep.2.2.1] at hsum
          have hmove := hstep.1
          linarith [hsum, hmove, h2, h3, hel, hcp]
        · rw [List.length_cons, ihh.2, hstep.2.1]
          omega

/-- C5 counterexample: on a fresh 1+1 clock a single first move deducts
nothing, grants nothing and adds no increment, yet `moveCount` becomes 1 —
so the sum of remaining times is 120000 while the claimed formula
`2·baseMs + moveCount·incrementMs − totalElapsed + totalLagCompensated`
gives 121000. -/
theorem clock_conservation_counterexample :
    applyTrace
      { whiteTime := 60000, blackTime := 60000, activeColor := none,
        lastMoveAt := none, firstMoveDeadline := some 30000, moveCount := 0,
        baseTime := 60000, increment := 1000 }
      [{ color := Color.w, clientTimestamp := none, now := 5000 }]
      = some ({ whiteTime := 60000, blackTime := 60000, activeColor := some Color.b,
                lastMoveAt := some 5000, firstMoveDeadline := none, moveCount := 1,
                baseTime := 60000, increment := 1000 }, 0, 0) ∧
    (60000 : Int) + 60000 ≠ 2 * 60000 + (1 : Int) * 1000 - 0 + 0 := by
  constructor
  · decide
  · decide

/-- C5 (amended): for any sequence of successful (non-timeout, non-error)
`makeMove` calls on a freshly primed clock, the sum of both remaining
times equals `2·baseMs + max(moveCount − 1, 0)·incrementMs −
totalElapsedExternally + totalLagCompensated` — the first committed move
adds no increment, so the increment term counts `moveCount − 1`, not
`moveCount`. -/
theorem applyTrace_conservation (st : ClockState) (calls : List ClockCall)
    (stf : ClockState) (e comp : Int)
    (hfresh : st.activeColor = none) (hw : st.whiteTime = st.baseTime)
    (hb : st.blackTime = st.baseTime) (hm : st.moveCount = 0)
    (h : applyTrace st calls = some (stf, e, comp)) :
    stf.whiteTime + stf.blackTime
      = 2 * st.baseTime + (max ((stf.moveCount : Int) - 1) 0) * st.increment - e + comp := by
  cases calls with
  | nil =>
    simp only [applyTrace, Option.some.injEq, Prod.mk.injEq] at h
    obtain ⟨h1, h2, h3⟩ := h
    subst h1; subst h2; subst h3
    rw [hm]
    have hmax : (max (((0 : Nat) : Int) - 1) 0) = 0 := by decide
    rw [hmax, hw, hb]
    ring
  | cons c rest =>
    simp only [applyTrace] at h
    cases hmk : makeMove st c.color c.clientTimestamp c.now with
    | err m => simp [hmk] at h
    | timeout w s2 => simp [hmk] at h
    | ok st' =>
      rw [hmk] at h
      simp only at h
      cases htr : applyTrace st' rest with
      | none => simp [htr] at h
      | some res =>
        obtain ⟨stf', e', comp'⟩ := res
        rw [htr] at h
        simp only [Option.some.injEq, Prod.mk.injEq] at h
        obtain ⟨h1, h2, h3⟩ := h
        subst h1
        have hfr := makeMove_ok_fresh_eq st c.color c.clientTimestamp c.now st' hfresh hmk
        have hne' : st'.activeColor ≠ none := by
          rw [hfr.2.2.2.2]; simp
        have ihh := applyTrace_started_sum rest st' stf' e' comp' hne' htr
        have he0 : elapsedOf st c = 0 := by simp [elapsedOf, hfresh]
        have hc0 : compOf st c = 0 := by simp [compOf, hfresh]
        have hmc : stf'.moveCount = rest.length + 1 := by
          rw [ihh.2, hfr.2.2.1, hm]
          omega
        have hmax : max ((stf'.moveCount : Int) - 1) 0 = (rest.length : Int) := by
          rw [hmc]
          push_cast
          rw [max_eq_left]
          · ring
          · have hnn := Int.natCast_nonneg rest.length
            omega
        rw [hmax]
        have hsum := ihh.1
        rw [hfr.1, hfr.2.1, hfr.2.2.2.1, hw, hb] at hsum
        linarith [hsum, h2, h3, he0, hc0]

/-- Witness for C5 (amended): a fresh 1+1 clock after one first move at
`now = 5000` satisfies the amended conservation identity. -/
theorem applyTrace_conservation_witness :
    (60000 : Int) + 60000
      = 2 * 60000 + (max (((1 : Nat) : Int) - 1) 0) * 1000 - 0 + 0 := by
  exact applyTrace_conservation
    { whiteTime := 60000, blackTime := 60000, activeColor := none,
      lastMoveAt := none, firstMoveDeadline := some 30000, moveCount := 0,
      baseTime := 60000, increment := 1000 }
    [{ color := Color.w, clientTimestamp := none, now := 5000 }]
    { whiteTime := 60000, blackTime := 60000, activeColor := some Color.b,
      lastMoveAt := some 5000, firstMoveDeadline := none, moveCount := 1,
      baseTime := 60000, increment := 1000 }
    0 0 rfl rfl rfl rfl (by decide)

/-! ## Claim C1 — exactly-once termination -/

/-- Unfolding step for schedules. -/
theorem termRun_cons (s : TermSys) (a : TermAct) (acts : List TermAct) :
    termRun s (a :: acts) = termRun (termStep s a) acts := rfl

/-- Invariant of watcher-only schedules: stats invocations never exceed
`game_over` emissions, at most one emission ever happens, and no emission
happens while the stored status is still ongoing. -/
theorem termRun_watcher_inv (acts : List TermAct) :
    ∀ s : TermSys, (∀ a ∈ acts, a.isWatcher = true) →
      s.statsInvocations ≤ s.gameOverEmits → s.gameOverEmits ≤ 1 →
      (s.status = GStatus.ongoing → s.gameOverEmits = 0) →
      (termRun s acts).statsInvocations ≤ (termRun s acts).gameOverEmits ∧
      (termRun s acts).gameOverEmits ≤ 1 := by
  induction acts with
  | nil =>
    intro s _ h1 h2 _
    exact ⟨h1, h2⟩
  | cons a rest ih =>
    intro s hw h1 h2 h3
    have hwa : a.isWatcher = true := hw a (List.mem_cons_self a rest)
    have hwr : ∀ x ∈ rest, x.isWatcher = true :=
      fun x hx => hw x (List.mem_cons_of_mem a hx)
    rw [termRun_cons]
    cases a with
    | watcherClockTimeout =>
      by_cases hc : s.status = GStatus.ongoing
      · have h0 := h3 hc
        refine ih _ hwr ?_ ?_ ?_
        · simp only [termStep, if_pos hc]
          omega
        · simp only [termStep, if_pos hc]
          omega
        · intro hx
          simp [termStep, if_pos hc] at hx
      · refine ih _ hwr ?_ ?_ ?_
        · simp only [termStep, if_neg hc]
          exact h1
        · simp only [termStep, if_neg hc]
          exact h2
        · simp only [termStep, if_neg hc]
          exact h3
    | watcherFirstMoveTimeout =>
      by_cases hc : s.status = GStatus.ongoing
      · have h0 := h3 hc
        refine ih _ hwr ?_ ?_ ?_
        · simp only [termStep, if_pos hc]
          omega
        · simp only [termStep, if_pos hc]
          omega
        · intro hx
          simp [termStep, if_pos hc] at hx
      · refine ih _ hwr ?_ ?_ ?_
        · simp only [termStep, if_neg hc]
          exact h1
        · simp only [termStep, if_neg hc]
          exact h2
        · simp only [termStep, if_neg hc]
          exact h3
    | watcherDisconnectTimeout expected =>
      by_cases hc : s.status = GStatus.ongoing ∧ s.disconnectedPlayerId = some expected
      · have h0 := h3 hc.1
        refine ih _ hwr ?_ ?_ ?_
        · simp only [termStep, if_pos hc]
          omega
        · simp only [termStep, if_pos hc]
          omega
        · intro hx
          simp [termStep, if_pos hc] at hx
      · refine ih _ hwr ?_ ?_ ?_
        · simp only [termStep, if_neg hc]
          exact h1
        · simp only [termStep, if_neg hc]
          exact h2
        · simp only [termStep, if_neg hc]
          exact h3
    | resignLoad => simp [TermAct.isWatcher] at hwa
    | resignFinish => simp [TermAct.isWatcher] at hwa

/-- C1 counterexample: the `resign_game` handler races the Timeout
Watcher.  The resign handler loads the game (still ongoing), the watcher's
conditional update then commits a timeout termination, emits `game_over`
and invokes the stats hook; the resign handler afterwards saves
unconditionally and emits `game_over` and invokes the stats hook again —
two emissions and two stats invocations for one game. -/
theorem resign_watcher_double_game_over :
    (termRun termInit
      [TermAct.resignLoad, TermAct.watcherClockTimeout, TermAct.resignFinish]).gameOverEmits = 2 ∧
    (termRun termInit
      [TermAct.resignLoad, TermAct.watcherClockTimeout, TermAct.resignFinish]).statsInvocations = 2 ∧
    ¬ ((termRun termInit
      [TermAct.resignLoad, TermAct.watcherClockTimeout, TermAct.resignFinish]).gameOverEmits ≤ 1) := by
  decide

/-- C1 (amended): across any interleaving of the Timeout Watcher's
terminators — each of which is a single conditional update with a
`status = ongoing` predicate and emits `game_over` / invokes stats only
when the update reports a modification — at most one `game_over` is
emitted and the stats hook is invoked at most once.  The guarantee does
not extend to the `resign_game` handler, which commits by an unconditional
save after a non-atomic status check. -/
theorem watcher_game_over_at_most_once (acts : List TermAct)
    (hw : ∀ a ∈ acts, a.isWatcher = true) :
    (termRun termInit acts).gameOverEmits ≤ 1 ∧
    (termRun termInit acts).statsInvocations ≤ 1 := by
  have h := termRun_watcher_inv acts termInit hw (by decide) (by decide) (by decide)
  exact ⟨h.2, le_trans h.1 h.2⟩

/-- Witness for C1 (amended): a schedule of three watcher terminators
emits exactly once overall. -/
theorem watcher_game_over_at_most_once_witness :
    (termRun termInit [TermAct.watcherClockTimeout, TermAct.watcherFirstMoveTimeout,
      TermAct.watcherDisconnectTimeout "user-1"]).gameOverEmits ≤ 1 ∧
    (termRun termInit [TermAct.watcherClockTimeout, TermAct.watcherFirstMoveTimeout,
      TermAct.watcherDisconnectTimeout "user-1"]).statsInvocations ≤ 1 := by
  exact watcher_game_over_at_most_once
    [TermAct.watcherClockTimeout, TermAct.watcherFirstMoveTimeout,
      TermAct.watcherDisconnectTimeout "user-1"] (by decide)

/-! ## Claim C2 — the completed-game data-model invariant -/

/-- `tryExecuteQueuedPremove` preserves "completed implies result set". -/
theorem tryExec_preserves_result (ruleMove : String → PremoveData → Option String)
    (overState : String → Option (GResult × String)) (g : GameDoc)
    (turnColor : Color) (whiteId blackId : String) (now : Int)
    (hg : g.status = GStatus.completed → g.result ≠ none) :
    (tryExecuteQueuedPremove ruleMove overState g turnColor whiteId blackId now).1.status
        = GStatus.completed →
    (tryExecuteQueuedPremove ruleMove overState g turnColor whiteId blackId now).1.result
        ≠ none := by
  cases hq : getPremove g.queuedPremoves turnColor with
  | none =>
    simp only [tryExecuteQueuedPremove, hq]
    exact hg
  | some pm =>
    cases hr : ruleMove g.pgn pm with
    | none =>
      simp only [tryExecuteQueuedPremove, hq, hr]
      exact hg
    | some pgnAfter =>
      cases hck : g.clock with
      | none =>
        simp only [tryExecuteQueuedPremove, hq, hr, hck, finishPremove]
        cases ho : overState pgnAfter with
        | none => simp only [ho]; exact hg
        | some p => simp only [ho]; intro _; simp
      | some ck =>
        cases hmk : makeMove ck turnColor (some now) now with
        | timeout w ck2 =>
          simp only [tryExecuteQueuedPremove, hq, hr, hck, hmk]
          intro _; simp
        | err m =>
          simp only [tryExecuteQueuedPremove, hq, hr, hck, hmk]
          exact hg
        | ok ck2 =>
          simp only [tryExecuteQueuedPremove, hq, hr, hck, hmk, finishPremove]
          cases ho : overState pgnAfter with
          | none => simp only [ho]; exact hg
          | some p => simp only [ho]; intro _; simp

/-- The `set_premove` handler never changes `status` or `result`. -/
theorem setPremoveHandler_core (g : GameDoc) (cc : Option Color)
    (pm : Option PremoveData) (t : Color) (now : Int) (hl : Nat) :
    (setPremoveHandler g cc pm t now hl).2.status = g.status ∧
    (setPremoveHandler g cc pm t now hl).2.result = g.result := by
  by_cases h1 : g.status ≠ GStatus.ongoing
  · simp [setPremoveHandler, h1]
  · cases cc with
    | none => simp [setPremoveHandler, h1]
    | some pc =>
      by_cases h2 : t = pc
      · simp [setPremoveHandler, h1, h2]
      · cases pm with
        | none => simp [setPremoveHandler, h1, h2]
        | some p =>
          by_cases h3 : p.fromSq = "" ∨ p.toSq = ""
          · simp [setPremoveHandler, h1, h2, h3]
          · simp [setPremoveHandler, h1, h2, h3]

/-- The `offer_draw` handler never changes `status` or `result`. -/
theorem offerDrawHandler_core (g : GameDoc) (c : Color) :
    (offerDrawHandler g c).2.status = g.status ∧
    (offerDrawHandler g c).2.result = g.result := by
  by_cases h1 : g.status ≠ GStatus.ongoing
  · simp [offerDrawHandler, h1]
  · by_cases h2 : g.drawOffersCount ≥ 2
    · simp [offerDrawHandler, h1, h2]
    · by_cases h3 : g.pendingDrawOfferFrom ≠ none
      · simp [offerDrawHandler, h1, h2, h3]
      · simp [offerDrawHandler, h1, h2, h3]

/-- The `reject_draw` handler never changes `status` or `result`. -/
theorem rejectDrawHandler_core (g : GameDoc) (c : Color) :
    (rejectDrawHandler g c).2.status = g.status ∧
    (rejectDrawHandler g c).2.result = g.result := by
  by_cases h1 : g.status ≠ GStatus.ongoing
  · simp [rejectDrawHandler, h1]
  · by_cases h2 : g.pendingDrawOfferFrom ≠ some c.opposite
    · simp [rejectDrawHandler, h1, h2]
    · simp [rejectDrawHandler, h1, h2]

/-- `applyGameStats` never changes the game's `status` or `result`. -/
theorem applyGameStats_game_core (w : StatsWorld) :
    (applyGameStats w).1.game.status = w.game.status ∧
    (applyGameStats w).1.game.result = w.game.result := by
  by_cases h : w.game.statsApplied
  · simp [applyGameStats, h]
  · cases hr : w.game.result with
    | none => simp [applyGameStats, h, hr]
    | some r => cases r <;> simp [applyGameStats, h, hr]

/-- C2 counterexample: the `make_move` flag-fall commit reaches
`status = completed` while the persisted clock still has
`activeColor = w` (the mover) and black's queued premove slot is still
set — the stored invariant "completed implies `activeColor = none` and
all premove slots unset" fails on this transition. -/
theorem completed_without_cleanup_counterexample :
    Step sampleGame (moveFlagFallCommit sampleGame sampleClockFlagged GResult.black) ∧
    (moveFlagFallCommit sampleGame sampleClockFlagged GResult.black).status
        = GStatus.completed ∧
    (moveFlagFallCommit sampleGame sampleClockFlagged GResult.black).clock
        = some sampleClockFlagged ∧
    sampleClockFlagged.activeColor ≠ none ∧
    slotOf (moveFlagFallCommit sampleGame sampleClockFlagged GResult.black).queuedPremoves
        Color.b ≠ none := by
  refine ⟨Step.moveFlagFall sampleGame sampleClock sampleClockFlagged Color.w none 1000
    GResult.black rfl (by decide), by decide⟩

/-- C2 (amended): after every committed transition, if the game's status
is completed then its result is set.  The original claim's further
conjuncts — `clock.activeColor = none` and both premove slots unset — do
not hold (see the counterexample): no commit ever resets `activeColor`,
and the `make_move` flag-fall commit leaves the opponent's stored premove
slot untouched. -/
theorem step_preserves_result_set (g g' : GameDoc) (hs : Step g g')
    (hg : g.status = GStatus.completed → g.result ≠ none) :
    g'.status = GStatus.completed → g'.result ≠ none := by
  cases hs with
  | resign g c now hst => intro _; simp [resignCommit]
  | acceptDraw g c now hst hp => intro _; simp [acceptDrawCommit]
  | cancelGame g now hst => intro _; simp [cancelGameCommit]
  | watcherTimeout g winner now hst => intro _; simp [handleTimeoutPatch]
  | watcherFirstMove g now hst => intro _; simp [handleFirstMoveTimeoutPatch]
  | watcherDisconnect g winner pid now hst hd =>
    intro _; simp [handleDisconnectTimeoutPatch]
  | reconnectClear g => exact hg
  | moveFlagFall g ck ckA c cts now w hck hmk => intro _; simp [moveFlagFallCommit]
  | moveCommit g pgnA ckA cm over now =>
    cases over with
    | none => exact hg
    | some p => intro _; simp [moveDbCommit]
  | premoveExec rm os g t wId bId now =>
    exact tryExec_preserves_result rm os g t wId bId now hg
  | setPremove g cc pm t now hl =>
    intro hx
    rw [(setPremoveHandler_core g cc pm t now hl).2]
    exact hg ((setPremoveHandler_core g cc pm t now hl).1 ▸ hx)
  | cancelPremove g c => exact hg
  | offerDraw g c =>
    intro hx
    rw [(offerDrawHandler_core g c).2]
    exact hg ((offerDrawHandler_core g c).1 ▸ hx)
  | rejectDraw g c =>
    intro hx
    rw [(rejectDrawHandler_core g c).2]
    exact hg ((rejectDrawHandler_core g c).1 ▸ hx)
  | statsHook g wS bS =>
    intro hx
    rw [(applyGameStats_game_core { game := g, whiteStats := wS, blackStats := bS }).2]
    exact hg ((applyGameStats_game_core
      { game := g, whiteStats := wS, blackStats := bS }).1 ▸ hx)

/-- Witness for C2 (amended): the resign commit on `sampleGame` yields a
completed game whose result is set. -/
theorem step_preserves_result_set_witness :
    (resignCommit sampleGame Color.w 5).result ≠ none := by
  exact step_preserves_result_set sampleGame (resignCommit sampleGame Color.w 5)
    (Step.resign sampleGame Color.w 5 rfl) (by decide) (by decide)

/-! ## Claim C6 — premove legality is decided at execution -/

/-- C6: setting a premove never fails for chess-legality reasons — the
`set_premove` handler takes no rules oracle and accepts every premove with
non-empty squares once the status / player / turn guards hold (first
conjunct, for all square and promotion contents).  When the queued premove
turns out illegal at turn-flip (`ruleMove` returns `none`, i.e.
`chess.move` throws), the slot is cleared, `premove_rejected` goes to the
premover and `premove_cleared` with reason `rejected` to the room, and the
pgn (the move history) is not mutated (second conjunct). -/
theorem premove_legality_decided_at_execution :
    (∀ (g : GameDoc) (pc : Color) (pm : PremoveData) (turnColor : Color)
        (now : Int) (histLen : Nat),
      g.status = GStatus.ongoing → turnColor ≠ pc →
      pm.fromSq ≠ "" → pm.toSq ≠ "" →
      (setPremoveHandler g (some pc) (some pm) turnColor now histLen).1
          = SetPremoveReply.accepted) ∧
    (∀ (ruleMove : String → PremoveData → Option String)
        (overState : String → Option (GResult × String)) (g : GameDoc)
        (turnColor : Color) (whiteId blackId : String) (now : Int) (pm : PremoveData),
      getPremove g.queuedPremoves turnColor = some pm →
      ruleMove g.pgn pm = none →
      (tryExecuteQueuedPremove ruleMove overState g turnColor whiteId blackId now).1.pgn
          = g.pgn ∧
      slotOf (tryExecuteQueuedPremove ruleMove overState g turnColor whiteId blackId
          now).1.queuedPremoves turnColor = none ∧
      (tryExecuteQueuedPremove ruleMove overState g turnColor whiteId blackId now).2
          = [Emit.premoveRejectedTo (match turnColor with
              | Color.w => whiteId
              | Color.b => blackId) "Invalid premove",
             Emit.premoveCleared turnColor "rejected"]) := by
  constructor
  · intro g pc pm t now hl hst hturn hf ht2
    simp [setPremoveHandler, hst, hturn, hf, ht2]
  · intro rm os g t wId bId now pm hq hr
    cases t <;>
      simp [tryExecuteQueuedPremove, hq, hr, slotOf, clearSlot]

/-- Witness for C6: a concrete premove with equal squares is accepted at
set-time, and a concrete illegal premove execution clears the slot, emits
only the rejection events, and leaves the pgn untouched. -/
theorem premove_legality_decided_at_execution_witness :
    (setPremoveHandler sampleGame (some Color.b) (some samplePremoveSame) Color.w 99 1).1
        = SetPremoveReply.accepted ∧
    ((tryExecuteQueuedPremove (fun _ _ => none) (fun _ => none) sampleGame Color.b
        "w1" "b1" 7).1.pgn = sampleGame.pgn ∧
     slotOf (tryExecuteQueuedPremove (fun _ _ => none) (fun _ => none) sampleGame Color.b
        "w1" "b1" 7).1.queuedPremoves Color.b = none ∧
     (tryExecuteQueuedPremove (fun _ _ => none) (fun _ => none) sampleGame Color.b
        "w1" "b1" 7).2
        = [Emit.premoveRejectedTo "b1" "Invalid premove",
           Emit.premoveCleared Color.b "rejected"]) := by
  exact ⟨premove_legality_decided_at_execution.1 sampleGame Color.b samplePremoveSame
      Color.w 99 1 rfl (by decide) (by decide) (by decide),
    premove_legality_decided_at_execution.2 (fun _ _ => none) (fun _ => none) sampleGame
      Color.b "w1" "b1" 7 samplePremove (by decide) rfl⟩

/-! ## Claim C7 — the statsApplied latch -/

/-- C7 counterexample: `applyGameStats` on a completed aborted game with a
clear flag still sets `statsApplied` to true — the atomic guard only
checks the flag; the aborted check happens after the flag is consumed. -/
theorem statsApplied_set_for_aborted_game :
    (applyGameStats sampleAbortedWorld).1.game.statsApplied = true ∧
    sampleAbortedGame.status = GStatus.completed ∧
    sampleAbortedGame.result = some GResult.aborted ∧
    sampleAbortedGame.statsApplied = false := by
  decide

/-- C7 (amended): `statsApplied` transitions monotonically and at most
once — a call on an already-flagged game is a no-op returning false, and a
second call right after any call is a no-op — and the flag is set by the
first `applyGameStats` invocation regardless of the game's status or
result; the win/loss/draw counters change only when the flag was clear and
the result is white, black or draw. -/
theorem applyGameStats_exactly_once (w : StatsWorld) :
    (applyGameStats w).1.game.statsApplied = true ∧
    (w.game.statsApplied = true → applyGameStats w = (w, false)) ∧
    applyGameStats (applyGameStats w).1 = ((applyGameStats w).1, false) ∧
    ((applyGameStats w).2 = true →
      w.game.statsApplied = false ∧ w.game.result ≠ none ∧
      w.game.result ≠ some GResult.aborted) ∧
    ((applyGameStats w).2 = false →
      (applyGameStats w).1.whiteStats = w.whiteStats ∧
      (applyGameStats w).1.blackStats = w.blackStats) := by
  by_cases h : w.game.statsApplied
  · refine ⟨?_, ?_, ?_, ?_, ?_⟩ <;> simp [applyGameStats, h]
  · cases hr : w.game.result with
    | none => refine ⟨?_, ?_, ?_, ?_, ?_⟩ <;> simp [applyGameStats, h, hr]
    | some r =>
      cases r <;> (refine ⟨?_, ?_, ?_, ?_, ?_⟩ <;> simp [applyGameStats, h, hr])

/-- Witness for C7 (amended): re-running the hook on the aborted sample
world is a no-op reporting false. -/
theorem applyGameStats_exactly_once_witness :
    applyGameStats (applyGameStats sampleAbortedWorld).1
      = ((applyGameStats sampleAbortedWorld).1, false) := by
  exact (applyGameStats_exactly_once sampleAbortedWorld).2.2.1

/-! ## Claim C8 — set-time premove validation -/

/-- C8 counterexample: a premove whose `from` equals `to` and whose
promotion is not one of q/r/b/n is accepted by the `set_premove` handler —
no coordinate, distinctness or promotion validation happens at set-time
(only truthiness of `from` and `to`). -/
theorem setPremove_accepts_equal_squares :
    (setPremoveHandler sampleGame (some Color.b) (some samplePremoveSame) Color.w 99 1).1
        = SetPremoveReply.accepted ∧
    samplePremoveSame.fromSq = samplePremoveSame.toSq ∧
    ¬ (samplePremoveSame.promotion = some "q" ∨ samplePremoveSame.promotion = some "r" ∨
       samplePremoveSame.promotion = some "b" ∨ samplePremoveSame.promotion = some "n") := by
  decide

/-- C8 (amended): the `set_premove` handler accepts exactly when the game
is ongoing, the caller is a player whose turn it is not, and the premove's
`from` and `to` fields are non-empty; `from = to`, non-coordinate strings
and arbitrary promotion values are all accepted at set-time. -/
theorem setPremove_accepted_iff (g : GameDoc) (callerColor : Option Color)
    (premove : Option PremoveData) (turnColor : Color) (now : Int) (histLen : Nat) :
    (setPremoveHandler g callerColor premove turnColor now histLen).1
        = SetPremoveReply.accepted
      ↔ (g.status = GStatus.ongoing ∧
         (∃ pc, callerColor = some pc ∧ turnColor ≠ pc) ∧
         (∃ pm, premove = some pm ∧ pm.fromSq ≠ "" ∧ pm.toSq ≠ "")) := by
  by_cases h1 : g.status ≠ GStatus.ongoing
  · simp [setPremoveHandler, h1]
  · have h1' : g.status = GStatus.ongoing := not_not.mp h1
    cases callerColor with
    | none => simp [setPremoveHandler, h1']
    | some pc =>
      by_cases h2 : turnColor = pc
      · simp [setPremoveHandler, h1', h2]
      · cases premove with
        | none => simp [setPremoveHandler, h1', h2]
        | some pm =>
          by_cases h3 : pm.fromSq = "" ∨ pm.toSq = ""
          · rcases h3 with h3 | h3 <;> simp [setPremoveHandler, h1', h2, h3]
          · push_neg at h3
            simp [setPremoveHandler, h1', h2, h3.1, h3.2]

/-- Witness for C8 (amended): a normal premove is accepted for white while
it is black's turn on the sample game. -/
theorem setPremove_accepted_iff_witness :
    (setPremoveHandler sampleGame (some Color.w) (some samplePremove) Color.b 3 2).1
        = SetPremoveReply.accepted := by
  exact (setPremove_accepted_iff sampleGame (some Color.w) (some samplePremove)
    Color.b 3 2).mpr
    ⟨rfl, ⟨Color.w, rfl, by decide⟩, ⟨samplePremove, rfl, by decide, by decide⟩⟩

/-! ## Claim C9 — draw-offer cap -/

/-- C9 counterexample: after white offers (rejected by black) and black
offers (rejected by white), white — whose own accepted-offer count is 1,
with no pending offer and the game ongoing — is still refused: the cap of
2 is a single per-game counter shared by both players, not per player. -/
theorem offer_draw_shared_cap_counterexample :
    (drawTrace sampleGame [DrawAct.offer Color.w, DrawAct.reject Color.b,
        DrawAct.offer Color.b, DrawAct.reject Color.w]).2.1 = 1 ∧
    (drawTrace sampleGame [DrawAct.offer Color.w, DrawAct.reject Color.b,
        DrawAct.offer Color.b, DrawAct.reject Color.w]).1.status = GStatus.ongoing ∧
    (drawTrace sampleGame [DrawAct.offer Color.w, DrawAct.reject Color.b,
        DrawAct.offer Color.b, DrawAct.reject Color.w]).1.pendingDrawOfferFrom = none ∧
    (offerDrawHandler (drawTrace sampleGame [DrawAct.offer Color.w, DrawAct.reject Color.b,
        DrawAct.offer Color.b, DrawAct.reject Color.w]).1 Color.w).1
        = DrawReply.errorMsg "Maximum draw offers reached for this game" := by
  decide

/-- C9 (amended): `offer_draw` succeeds exactly when the game is ongoing,
the game-wide shared counter `drawOffersCount` is below 2, and no offer is
pending; the rejection conditions are those three, with the cap per game
(shared by white and black), not per player.  On success the pending
offer is recorded and the shared counter is incremented. -/
theorem offerDraw_rejected_iff (g : GameDoc) (caller : Color) :
    ((offerDrawHandler g caller).1 = DrawReply.ok ↔
      (g.status = GStatus.ongoing ∧ g.drawOffersCount < 2 ∧
       g.pendingDrawOfferFrom = none)) ∧
    ((offerDrawHandler g caller).1 = DrawReply.ok →
      (offerDrawHandler g caller).2.pendingDrawOfferFrom = some caller ∧
      (offerDrawHandler g caller).2.drawOffersCount = g.drawOffersCount + 1) := by
  unfold offerDrawHandler
  by_cases h1 : g.status ≠ GStatus.ongoing
  · rw [if_pos h1]
    refine ⟨⟨fun hok => absurd hok (by simp), fun hr => absurd hr.1 h1⟩,
      fun hok => absurd hok (by simp)⟩
  · rw [if_neg h1]
    have h1' : g.status = GStatus.ongoing := not_not.mp h1
    by_cases h2 : g.drawOffersCount ≥ 2
    · rw [if_pos h2]
      refine ⟨⟨fun hok => absurd hok (by simp), fun hr => absurd hr.2.1 (by omega)⟩,
        fun hok => absurd hok (by simp)⟩
    · rw [if_neg h2]
      by_cases h3 : g.pendingDrawOfferFrom ≠ none
      · rw [if_pos h3]
        refine ⟨⟨fun hok => absurd hok (by simp), fun hr => absurd hr.2.2 h3⟩,
          fun hok => absurd hok (by simp)⟩
      · rw [if_neg h3]
        have h3' : g.pendingDrawOfferFrom = none := not_not.mp h3
        refine ⟨⟨fun _ => ⟨h1', by omega, h3'⟩, fun _ => rfl⟩,
          fun _ => ⟨rfl, rfl⟩⟩

/-- Witness for C9 (amended): on the sample game (counter 0, no pending
offer) white's offer succeeds and the shared counter becomes 1. -/
theorem offerDraw_rejected_iff_witness :
    (offerDrawHandler sampleGame Color.w).1 = DrawReply.ok ∧
    (offerDrawHandler sampleGame Color.w).2.drawOffersCount = 1 := by
  have h := offerDraw_rejected_iff sampleGame Color.w
  have hok := h.1.mpr ⟨rfl, by decide, rfl⟩
  exact ⟨hok, (h.2 hok).2⟩

end Chessy
